import Mathlib

/-!
Verification of the CLISS infinite question bank core (`src/types.ts`).

The development shallowly embeds the three components the specification
covers: the text-to-question parser (`parseGeneratedText`), the bank
manager (capacity-checked add with confirmed eviction, mark toggling),
and the session controller (deck rebuild effect and `handleNext`).

Modelling conventions:
* Text is a sequence of Unicode code points (`List Char`); every symbol
  handled by the program (`∆`, `§`, `^`, `$`, `€`, `¥`, `¢`, `\`) is a
  single UTF-16 code unit in JavaScript, so code-point and code-unit
  indexing coincide on all relevant operations.
* JavaScript `Math.random()` is modelled as an external stream of draws
  `rand : Nat → Nat`, consumed sequentially by a counter exactly where
  the source calls `Math.random()`.  A draw used as
  `Math.floor(Math.random() * n)` is read as `rand t % n` (both range
  over `0 .. n-1`, and every joint behaviour of the source corresponds
  to some draw stream); a draw interpolated into an id string is read
  as its decimal representation.
* `Date.now()` is modelled as an explicit clock argument `now : Nat`,
  a second external input distinct from the random stream.
* Optional JavaScript fields (`userNote?`, `isMarked?`,
  `hasBeenPracticed?`) are `Option` fields; the source reads them only
  through truthiness, modelled by `Option.getD false`.
* React `useState` pairs are collected into explicit state records and
  every handler is a function from the old state (plus its arguments)
  to the new state.
-/

/-! ### JavaScript primitive string operations -/

/-- Code points matched by the JavaScript regular-expression class `\s`
(whitespace and line terminators; also the set removed by `trim()`). -/
def jsSpaceChars : List Char :=
  [' ', '\t', '\n', '\r', '\x0b', '\x0c', ' ', ' ',
   ' ', ' ', ' ', ' ', ' ', ' ',
   ' ', ' ', ' ', ' ', ' ', ' ',
   ' ', ' ', ' ', '　', '﻿']

/-- Membership in the JavaScript `\s` class. -/
def isJsSpace (c : Char) : Bool := jsSpaceChars.contains c

/-- Membership in the JavaScript `\w` class (`[A-Za-z0-9_]`). -/
def isWordChar (c : Char) : Bool :=
  ('a' ≤ c && c ≤ 'z') || ('A' ≤ c && c ≤ 'Z') || ('0' ≤ c && c ≤ '9') || c = '_'

/-- JavaScript `String.prototype.trim`: strip `\s` characters from both
ends. -/
def jsTrim (l : List Char) : List Char :=
  ((l.dropWhile isJsSpace).reverse.dropWhile isJsSpace).reverse

/-- The pre-processing step of `parseGeneratedText`:
`text.replace(/\\([^\s\w])/g, '$1')`.  A backslash immediately followed
by a character that is neither whitespace nor a word character collapses
to that character; matches are found left to right and scanning resumes
after each replaced pair. -/
def unescape : List Char → List Char
  | [] => []
  | '\\' :: c :: rest =>
    if !isJsSpace c && !isWordChar c then c :: unescape rest
    else '\\' :: unescape (c :: rest)
  | c :: rest => c :: unescape rest

/-- Worker for `splitOnChars`.  `fuel` only forces structural recursion:
every step consumes at least one character of the third argument, so
with initial `fuel = length` the zero-fuel fallback is unreachable. -/
def splitOnAux (sep : List Char) : Nat → List Char → List Char → List (List Char)
  | _, cur, [] => [cur.reverse]
  | 0, cur, rest => [cur.reverse ++ rest]
  | fuel + 1, cur, c :: rest =>
    if sep.isPrefixOf (c :: rest) then
      cur.reverse :: splitOnAux sep fuel [] (rest.drop (sep.length - 1))
    else
      splitOnAux sep fuel (c :: cur) rest

/-- JavaScript `String.prototype.split` with a non-empty string
separator: pieces between non-overlapping left-to-right occurrences of
`sep`, empty pieces included. -/
def splitOnChars (sep l : List Char) : List (List Char) :=
  splitOnAux sep l.length [] l

/-! ### Parser data model (`Option` and `Question` interfaces) -/

/-- The source's `Option` interface (named `QOption` here because `Option`
is taken by Lean's core library). -/
structure QOption where
  text : String
  isCorrect : Bool
deriving DecidableEq

/-- The source's `Question` interface.  `userNote?`, `isMarked?` and
`hasBeenPracticed?` are optional fields. -/
structure Question where
  id : String
  questionText : String
  options : List QOption
  explanation : String
  userNote : Option String := none
  isMarked : Option Bool := none
  hasBeenPracticed : Option Bool := none
deriving DecidableEq

/-- The recognised correctness symbols `['$', '€', '¥', '¢']`. -/
def symbolChars : List Char := ['$', '€', '¥', '¢']

/-- Symbol/text extraction from one already-trimmed option line: either
an escape marker `\` followed by a recognised symbol, or a bare
recognised symbol as the first character; anything else is rejected.
The text after the symbol is trimmed. -/
def readOptionLine : List Char → Option (Char × List Char)
  | '\\' :: c :: rest =>
    if symbolChars.contains c then some (c, jsTrim rest) else none
  | c :: rest =>
    if symbolChars.contains c then some (c, jsTrim rest) else none
  | [] => none

/-- The option-line fold of `parseGeneratedText`: `optionLines.map(...)`
with the mutable `seenSymbols` set, followed by `.filter(o => o ≠ null)`.
A line with no recognised symbol, an empty text after trimming, or a
symbol already seen contributes nothing (and only an accepted line
claims its symbol); `isCorrect` records whether the symbol is `$`. -/
def collectOptions : List Char → List (List Char) → List QOption
  | _, [] => []
  | seen, line :: rest =>
    match readOptionLine (jsTrim line) with
    | none => collectOptions seen rest
    | some (symbol, textChars) =>
      if textChars = [] then collectOptions seen rest
      else if seen.contains symbol then collectOptions seen rest
      else { text := String.mk textChars, isCorrect := decide (symbol = '$') }
        :: collectOptions (symbol :: seen) rest

/-- The acceptance guard
`options.length > 1 && options.some(o => o.isCorrect)`. -/
def acceptOptions (options : List QOption) : Bool :=
  decide (options.length > 1) && options.any (fun o => o.isCorrect)

/-! ### Fisher–Yates shuffle (`shuffleArray`) -/

/-- The destructuring swap `[a[i], a[j]] = [a[j], a[i]]` on a list
(identity when either index is out of range; the shuffle only invokes it
in range). -/
def listSwap (l : List α) (i j : Nat) : List α :=
  match l[i]?, l[j]? with
  | some a, some b => (l.set i b).set j a
  | _, _ => l

/-- The loop of `shuffleArray`: iterations `i = n-1, …, 1`, each drawing
`j = rand t % (i+1)` (the model of `Math.floor(Math.random()*(i+1))`)
and swapping positions `i` and `j`; `t` counts consumed draws. -/
def fyLoop (rand : Nat → Nat) : Nat → List α → Nat → List α
  | _, arr, 0 => arr
  | t, arr, i + 1 => fyLoop rand (t + 1) (listSwap arr (i + 1) (rand t % (i + 2))) i

/-- `shuffleArray`, drawing `arr.length - 1` values starting at stream
position `t`. -/
def shuffleArray (rand : Nat → Nat) (t : Nat) (arr : List α) : List α :=
  fyLoop rand t arr (arr.length - 1)

/-! ### The parser (`parseGeneratedText`) -/

/-- The id template literal
`q_${Date.now()}_${Math.random()}_${i}`, with the clock reading and
the random draw rendered in decimal. -/
def mkId (now rnd i : Nat) : String :=
  "q_" ++ Nat.repr now ++ "_" ++ Nat.repr rnd ++ "_" ++ Nat.repr i

/-- The `∆∆∆∆∆` separator. -/
def deltaSep : List Char := "∆∆∆∆∆".toList

/-- The `§§§§` separator. -/
def sectionSep : List Char := "§§§§".toList

/-- The `^^^^^` delimiter. -/
def caretSep : List Char := "^^^^^".toList

/-- Per-pair processing up to (not including) the acceptance guard:
split the content block on `§§§§` (exactly two non-blank parts), split
the second on `^^^^^` (exactly one non-blank part), trim question text
and explanation, split the options part into non-blank lines, and run
the option-line fold.  `none` means the pair is silently skipped. -/
def processPair (qtRaw contentBlock : List Char) :
    Option (List Char × List Char × List QOption) :=
  let contentParts := (splitOnChars sectionSep contentBlock).filter (fun p => jsTrim p ≠ [])
  match contentParts with
  | [optionsPart, explanationContainer] =>
    let explanationParts :=
      (splitOnChars caretSep explanationContainer).filter (fun p => jsTrim p ≠ [])
    match explanationParts with
    | [e] =>
      let questionText := jsTrim qtRaw
      let explanation := jsTrim e
      let optionLines :=
        (splitOnChars ['\n'] (jsTrim optionsPart)).filter (fun line => jsTrim line ≠ [])
      if questionText = [] ∨ explanation = [] ∨ optionLines.length = 0 then none
      else some (questionText, explanation, collectOptions [] optionLines)
    | _ => none
  | _ => none

/-- The stride-2 indexing of the parts array: the loop
`for (i = 0; i < parts.length; i += 2)` reads `(parts[i], parts[i+1])`.
A dangling last element is unreachable, the parser having already
rejected odd part counts. -/
def toPairs : List α → List (α × α)
  | a :: b :: rest => (a, b) :: toPairs rest
  | _ => []

/-- The parts loop of `parseGeneratedText`: `i` is the loop index (used
in ids) and `t` the number of random draws consumed so far.  An accepted
pair draws once for its id and `options.length - 1` times for the
shuffle. -/
def processPairs (now : Nat) (rand : Nat → Nat) :
    List (List Char × List Char) → Nat → Nat → List Question
  | [], _, _ => []
  | (qtRaw, contentBlock) :: rest, i, t =>
    match processPair qtRaw contentBlock with
    | none => processPairs now rand rest (i + 2) t
    | some (questionText, explanation, options) =>
      if acceptOptions options then
        { id := mkId now (rand t) i,
          questionText := String.mk questionText,
          options := shuffleArray rand (t + 1) options,
          explanation := String.mk explanation,
          hasBeenPracticed := some false }
          :: processPairs now rand rest (i + 2) (t + 1 + (options.length - 1))
      else processPairs now rand rest (i + 2) t

/-- The `{ newQuestions, error }` result object of `parseGeneratedText`. -/
structure ParseResult where
  newQuestions : List Question
  error : Option String
deriving DecidableEq

/-- `parseGeneratedText`, with the two external inputs made explicit:
`now` (the `Date.now()` reading) and `rand` (the `Math.random()` draw
stream). -/
def parseGeneratedText (now : Nat) (rand : Nat → Nat) (text : String) : ParseResult :=
  let processedText := unescape text.toList
  if jsTrim processedText = [] then
    ⟨[], some ("Input text is empty.")⟩
  else
    let parts := (splitOnChars deltaSep processedText).filter (fun p => jsTrim p ≠ [])
    if parts.length = 0 ∨ parts.length % 2 ≠ 0 then
      ⟨[], some ("Invalid format. The text should contain pairs of sections separated by '∆∆∆∆∆'.")⟩
    else
      let newQuestions := processPairs now rand (toPairs parts) 0 0
      if newQuestions.length = 0 then
        ⟨[], some ("Parsing failed. Please check your format. Example: Question Text ∆∆∆∆∆ $Correct Option\n€Incorrect Option §§§§ Explanation ^^^^^")⟩
      else ⟨newQuestions, none⟩

/-- Erase a question's id (the only field fed by the clock). -/
def stripId (q : Question) : Question := { q with id := "" }

/-- A parse result up to question ids. -/
def eraseIds (r : ParseResult) : ParseResult :=
  ⟨r.newQuestions.map stripId, r.error⟩

/-! ### Bank manager (`App` component handlers) -/

/-- `MAX_QUESTIONS`. -/
def MAX_QUESTIONS : Nat := 5000

/-- `DELETION_CHUNK_SIZE`. -/
def DELETION_CHUNK_SIZE : Nat := 50

/-- The `App` state relevant to the bank: the persisted question list
and the confirmation-modal state `{ isOpen, newQuestions }` (the field
is named `pendingQuestions` here to avoid clashing with parser result
names). -/
structure AppState where
  questions : List Question
  modalOpen : Bool
  pendingQuestions : List Question
deriving DecidableEq

/-- `handleSaveNewQuestions`: over capacity, open the modal holding the
batch; otherwise append and persist. -/
def handleSaveNewQuestions (s : AppState) (newQuestions : List Question) : AppState :=
  if s.questions.length + newQuestions.length > MAX_QUESTIONS then
    { s with modalOpen := true, pendingQuestions := newQuestions }
  else
    { s with questions := s.questions ++ newQuestions }

/-- `handleModalConfirm`: drop the oldest `DELETION_CHUNK_SIZE`
questions, append the pending batch, close the modal. -/
def handleModalConfirm (s : AppState) : AppState :=
  { questions := s.questions.drop DELETION_CHUNK_SIZE ++ s.pendingQuestions,
    modalOpen := false,
    pendingQuestions := [] }

/-- `handleModalCancel`: close the modal, discarding the pending batch. -/
def handleModalCancel (s : AppState) : AppState :=
  { s with modalOpen := false, pendingQuestions := [] }

/-- The complete add interaction as wired in the UI:
`handleSaveNewQuestions`, then — exactly when it opened the modal — the
user's single choice of `handleModalConfirm` or `handleModalCancel`. -/
def addFlow (s : AppState) (newQuestions : List Question) (userConfirms : Bool) : AppState :=
  let s₁ := handleSaveNewQuestions s newQuestions
  if s.questions.length + newQuestions.length > MAX_QUESTIONS then
    if userConfirms then handleModalConfirm s₁ else handleModalCancel s₁
  else s₁

/-- `handleToggleMark`: map over the bank, replacing the matching
question's `isMarked` with the negation of its truthiness
(`!q.isMarked` in JavaScript, where an absent field reads as false). -/
def handleToggleMark (questions : List Question) (questionId : String) : List Question :=
  questions.map (fun q =>
    if q.id = questionId then { q with isMarked := some (!(q.isMarked.getD false)) } else q)

/-- `handleMarkAsPracticed`: set `hasBeenPracticed = true` on the
matching question. -/
def handleMarkAsPracticed (questions : List Question) (questionId : String) : List Question :=
  questions.map (fun q =>
    if q.id = questionId then { q with hasBeenPracticed := some true } else q)

/-- Normalisation by the default reading of the optional `isMarked`
field: an absent flag and an explicit `false` both mean "unmarked". -/
def normalizeMarked (questions : List Question) : List Question :=
  questions.map (fun q => { q with isMarked := some (q.isMarked.getD false) })

/-! ### Session controller (`QuestionBankView`) -/

/-- The `QuestionBankView` state cells used by the deck effect and
`handleNext`.  `eliminatedOptions` holds the elements of the
JavaScript `Set<string>`. -/
structure SessionState where
  newDeck : List Question
  practicedDeck : List Question
  deckPosition : Nat
  isPracticingNew : Bool
  selectedAnswer : Option String
  showExplanation : Bool
  eliminatedOptions : List String
  time : Nat
  isTimerRunning : Bool
  focusNewOnly : Bool
deriving DecidableEq

/-- The in-place refresh
`deck.map(dq => questions.find(q => q.id === dq.id)!).filter(Boolean)`:
each deck entry is replaced by the bank question with the same id, and
entries with no match are removed. -/
def updateDeck (questions deck : List Question) : List Question :=
  deck.filterMap (fun dq => questions.find? (fun q => q.id == dq.id))

/-- The `useEffect` on `[questions]`: split the snapshot into New
(`!q.hasBeenPracticed`) and Review questions; if both counts match the
held decks, refresh deck data in place; otherwise reshuffle both decks
(the second shuffle continuing the draw stream after the first), reset
position, pick the phase, and reset scratch state and timer. -/
def bankEffect (rand : Nat → Nat) (questions : List Question) (s : SessionState) :
    SessionState :=
  let newQuestions := questions.filter (fun q => !(q.hasBeenPracticed.getD false))
  let practicedQuestions := questions.filter (fun q => q.hasBeenPracticed.getD false)
  if newQuestions.length = s.newDeck.length ∧
      practicedQuestions.length = s.practicedDeck.length then
    { s with
      newDeck := updateDeck questions s.newDeck,
      practicedDeck := updateDeck questions s.practicedDeck }
  else
    { s with
      newDeck := shuffleArray rand 0 newQuestions,
      practicedDeck := shuffleArray rand (newQuestions.length - 1) practicedQuestions,
      deckPosition := 0,
      isPracticingNew := decide (newQuestions.length > 0),
      selectedAnswer := none,
      showExplanation := false,
      eliminatedOptions := [],
      time := 0,
      isTimerRunning := true }

/-- `activeDeck[deckPosition]` with
`activeDeck = isPracticingNew ? newDeck : practicedDeck`. -/
def currentQuestion (s : SessionState) : Option Question :=
  (if s.isPracticingNew then s.newDeck else s.practicedDeck)[s.deckPosition]?

/-- `handleNext`.  Besides the new session state it returns the id the
handler passes to `onMarkAsPracticed` (`none` when no call is made):
early return when there is no current question; otherwise mark in the
New phase, advance or switch deck when possible, and reset the scratch
state and timer unconditionally. -/
def handleNext (s : SessionState) : SessionState × Option String :=
  match currentQuestion s with
  | none => (s, none)
  | some cur =>
    let markId := if s.isPracticingNew then some cur.id else none
    let activeDeck := if s.isPracticingNew then s.newDeck else s.practicedDeck
    let isLastInNewDeck := s.isPracticingNew && decide (s.deckPosition + 1 ≥ s.newDeck.length)
    let s₁ :=
      if isLastInNewDeck && !s.focusNewOnly && decide (s.practicedDeck.length > 0) then
        { s with isPracticingNew := false, deckPosition := 0 }
      else if s.deckPosition + 1 < activeDeck.length then
        { s with deckPosition := s.deckPosition + 1 }
      else s
    ({ s₁ with
        selectedAnswer := none,
        showExplanation := false,
        eliminatedOptions := [],
        time := 0,
        isTimerRunning := true }, markId)

/-! ### Concrete sample data for witnesses and counterexamples -/

/-- The all-zero draw stream. -/
def rand0 : Nat → Nat := fun _ => 0

/-- The spec's example input:
one question, a correct and an incorrect option, an explanation. -/
def sampleText : String := "Q ∆∆∆∆∆ $A\n€B §§§§ E ^^^^^"

/-- A generic stored question (unmarked, not yet practiced, no note). -/
def sampleQ : Question :=
  { id := "q_old", questionText := "old", options := [⟨"x", true⟩, ⟨"y", false⟩],
    explanation := "ex", hasBeenPracticed := some false }

/-- A question whose `isMarked` field is absent. -/
def unmarkedQ : Question :=
  { id := "a", questionText := "t", options := [⟨"x", true⟩, ⟨"y", false⟩],
    explanation := "e", hasBeenPracticed := some false }

/-- A question with `isMarked` explicitly set. -/
def markedQ : Question :=
  { id := "b", questionText := "t", options := [⟨"x", true⟩, ⟨"y", false⟩],
    explanation := "e", isMarked := some false, hasBeenPracticed := some false }

/-- A practiced question, for session-state witnesses. -/
def practicedQ : Question :=
  { id := "p", questionText := "t", options := [⟨"x", true⟩, ⟨"y", false⟩],
    explanation := "e", hasBeenPracticed := some true }

/-- A session state sitting on the last Review question (a terminal
position for `handleNext`). -/
def terminalSession : SessionState :=
  { newDeck := [], practicedDeck := [practicedQ], deckPosition := 0,
    isPracticingNew := false, selectedAnswer := some "x",
    showExplanation := true, eliminatedOptions := ["y"], time := 42,
    isTimerRunning := false, focusNewOnly := false }

/-- A session state holding stale decks, for the rebuild witness. -/
def emptySession : SessionState :=
  { newDeck := [], practicedDeck := [], deckPosition := 3,
    isPracticingNew := false, selectedAnswer := some "x",
    showExplanation := true, eliminatedOptions := ["y"], time := 7,
    isTimerRunning := false, focusNewOnly := true }

/-- A bank filled to 4995 questions. -/
def bank4995 : AppState :=
  { questions := List.replicate 4995 sampleQ, modalOpen := false, pendingQuestions := [] }

/-- An incoming batch of 100 questions. -/
def batch100 : List Question := List.replicate 100 sampleQ

/-- An incoming batch of 10 questions. -/
def batch10 : List Question := List.replicate 10 sampleQ

/-- The question produced by parsing `sampleText` at clock reading 0 with
the all-zero draw stream (the two options end up swapped by the
shuffle). -/
def parsedQ : Question :=
  { id := "q_0_0_0", questionText := "Q",
    options := [⟨"B", false⟩, ⟨"A", true⟩], explanation := "E",
    hasBeenPracticed := some false }

/-- A session state on the last New question with focus-new-only set
(a terminal position for `handleNext` that still marks the question
practiced). -/
def terminalNewSession : SessionState :=
  { newDeck := [unmarkedQ], practicedDeck := [practicedQ], deckPosition := 0,
    isPracticingNew := true, selectedAnswer := some "x",
    showExplanation := true, eliminatedOptions := ["y"], time := 9,
    isTimerRunning := false, focusNewOnly := true }

/-! ### Helper lemmas -/

/-- Moving an element of `xs` to the front while writing `x` into its
slot permutes `x :: xs`. -/
theorem swapConsPerm {α : Type} (xs : List α) (j : Nat) (x a : α)
    (hj : xs[j]? = some a) : (a :: xs.set j x).Perm (x :: xs) := by
  induction xs generalizing j with
  | nil => simp at hj
  | cons y ys ih =>
    cases j with
    | zero =>
      simp at hj
      subst hj
      exact List.Perm.swap x y ys
    | succ k =>
      simp only [List.getElem?_cons_succ] at hj
      simp only [List.set_cons_succ]
      exact ((List.Perm.swap a y _).symm).trans
        ((List.Perm.cons y (ih k hj)).trans (List.Perm.swap x y ys))

/-- Writing `l[j]` at position `i` and `l[i]` at position `j` permutes
`l`. -/
theorem setSwapPerm {α : Type} (l : List α) (i j : Nat) (a b : α)
    (hi : l[i]? = some a) (hj : l[j]? = some b) :
    ((l.set i b).set j a).Perm l := by
  induction l generalizing i j with
  | nil => simp at hi
  | cons x xs ih =>
    cases i with
    | zero =>
      simp at hi
      subst hi
      cases j with
      | zero =>
        simp at hj
        subst hj
        simp
      | succ k =>
        simp only [List.getElem?_cons_succ] at hj
        simp only [List.set_cons_zero, List.set_cons_succ]
        exact swapConsPerm xs k x b hj
    | succ m =>
      simp only [List.getElem?_cons_succ] at hi
      cases j with
      | zero =>
        simp at hj
        subst hj
        simp only [List.set_cons_succ, List.set_cons_zero]
        exact swapConsPerm xs m x a hi
      | succ k =>
        simp only [List.getElem?_cons_succ] at hi hj
        simp only [List.set_cons_succ]
        exact List.Perm.cons x (ih m k hi hj)

/-- A `listSwap` is a permutation. -/
theorem listSwap_perm {α : Type} (l : List α) (i j : Nat) : (listSwap l i j).Perm l := by
  unfold listSwap
  cases hi : l[i]? with
  | none =>
    cases hj : l[j]? <;> simp
  | some a =>
    cases hj : l[j]? with
    | none => simp
    | some b => exact setSwapPerm l i j a b hi hj

/-- Every pass of the Fisher-Yates loop permutes its input. -/
theorem fyLoop_perm {α : Type} (rand : Nat → Nat) :
    ∀ (n t : Nat) (arr : List α), (fyLoop rand t arr n).Perm arr := by
  intro n
  induction n with
  | zero => intro t arr; simp [fyLoop]
  | succ i ih =>
    intro t arr
    simp only [fyLoop]
    exact (ih (t + 1) _).trans (listSwap_perm arr (i + 1) (rand t % (i + 2)))

/-- `shuffleArray` returns a permutation of its input. -/
theorem shuffleArray_perm {α : Type} (rand : Nat → Nat) (t : Nat) (arr : List α) :
    (shuffleArray rand t arr).Perm arr :=
  fyLoop_perm rand (arr.length - 1) t arr

/-- Every option emitted by the option-line fold has non-empty text. -/
theorem collectOptions_text_ne (seen : List Char) (lines : List (List Char)) :
    ∀ o ∈ collectOptions seen lines, o.text ≠ "" := by
  induction lines generalizing seen with
  | nil => simp [collectOptions]
  | cons line rest ih =>
    intro o ho
    simp only [collectOptions] at ho
    cases hr : readOptionLine (jsTrim line) with
    | none =>
      rw [hr] at ho
      exact ih seen o ho
    | some st =>
      rw [hr] at ho
      obtain ⟨symbol, textChars⟩ := st
      by_cases ht : textChars = []
      · simp only [ht, if_pos rfl] at ho
        exact ih seen o ho
      · simp only [if_neg ht] at ho
        by_cases hs : seen.contains symbol
        · simp only [hs, if_pos rfl] at ho
          exact ih seen o ho
        · simp only [hs, if_neg] at ho
          rcases List.mem_cons.mp ho with h | h
          · subst h
            intro hcontra
            have : textChars = [] := congrArg String.data hcontra
            exact ht this
          · exact ih (symbol :: seen) o h

/-- The options of a successfully processed pair come from the
option-line fold. -/
theorem processPair_options (qtRaw contentBlock : List Char)
    (qt ex : List Char) (opts : List QOption)
    (h : processPair qtRaw contentBlock = some (qt, ex, opts)) :
    ∃ lines, opts = collectOptions [] lines := by
  unfold processPair at h
  simp only [] at h
  split at h
  · split at h
    · split at h
      · exact absurd h (by simp)
      · simp only [Option.some.injEq, Prod.mk.injEq] at h
        exact ⟨_, h.2.2.symm⟩
    · exact absurd h (by simp)
  · exact absurd h (by simp)

/-- Every question produced by the parts loop passed the acceptance
guard over some option list its shuffled options permute, with only
non-empty option texts, and starts unpracticed. -/
theorem processPairs_mem (now : Nat) (rand : Nat → Nat) :
    ∀ (ps : List (List Char × List Char)) (i t : Nat) (q : Question),
      q ∈ processPairs now rand ps i t →
      ∃ opts : List QOption, acceptOptions opts = true ∧
        (∀ o ∈ opts, o.text ≠ "") ∧ q.options.Perm opts ∧
        q.hasBeenPracticed = some false := by
  intro ps
  induction ps with
  | nil => intro i t q hq; simp [processPairs] at hq
  | cons p rest ih =>
    intro i t q hq
    obtain ⟨qtRaw, contentBlock⟩ := p
    simp only [processPairs] at hq
    cases hp : processPair qtRaw contentBlock with
    | none =>
      rw [hp] at hq
      exact ih _ _ q hq
    | some triple =>
      rw [hp] at hq
      obtain ⟨qt, ex, opts⟩ := triple
      by_cases ha : acceptOptions opts
      · simp only [ha, if_pos rfl] at hq
        rcases List.mem_cons.mp hq with h | h
        · subst h
          refine ⟨opts, ha, ?_, ?_, rfl⟩
          · obtain ⟨lines, hl⟩ := processPair_options qtRaw contentBlock qt ex opts hp
            rw [hl]
            exact collectOptions_text_ne [] lines
          · exact shuffleArray_perm rand (t + 1) opts
        · exact ih _ _ q h
      · simp only [ha, if_neg] at hq
        exact ih _ _ q hq

/-- The parts loop is independent of the clock reading except through
question ids. -/
theorem processPairs_map_stripId (rand : Nat → Nat) (n₁ n₂ : Nat) :
    ∀ (ps : List (List Char × List Char)) (i t : Nat),
      (processPairs n₁ rand ps i t).map stripId =
        (processPairs n₂ rand ps i t).map stripId := by
  intro ps
  induction ps with
  | nil => intro i t; simp [processPairs]
  | cons p rest ih =>
    intro i t
    obtain ⟨qtRaw, contentBlock⟩ := p
    simp only [processPairs]
    cases hp : processPair qtRaw contentBlock with
    | none => exact ih _ _
    | some triple =>
      obtain ⟨qt, ex, opts⟩ := triple
      by_cases ha : acceptOptions opts
      · simp only [ha, if_pos trivial, if_true, List.map_cons]
        rw [ih]
        simp [stripId]
      · simp only [ha, if_neg]
        exact ih _ _

/-- The final error check of the parser maps id-equal question lists to
id-equal results. -/
theorem finishAux (q1 q2 : List Question) (h : q1.map stripId = q2.map stripId)
    (msg : String) :
    eraseIds (if q1.length = 0 then ⟨[], some msg⟩ else ⟨q1, none⟩) =
      eraseIds (if q2.length = 0 then ⟨[], some msg⟩ else ⟨q2, none⟩) := by
  have hlen : q1.length = q2.length := by
    have := congrArg List.length h
    simpa using this
  by_cases h0 : q1.length = 0
  · rw [if_pos h0, if_pos (hlen ▸ h0)]
  · rw [if_neg h0, if_neg (hlen ▸ h0)]
    simp [eraseIds, h]

/-- A confirmed over-capacity add stores the old bank minus its first
`DELETION_CHUNK_SIZE` entries, with the batch appended. -/
theorem addFlow_confirm_questions (s : AppState) (newQuestions : List Question)
    (hover : MAX_QUESTIONS < s.questions.length + newQuestions.length) :
    (addFlow s newQuestions true).questions =
      s.questions.drop DELETION_CHUNK_SIZE ++ newQuestions := by
  unfold addFlow handleSaveNewQuestions handleModalConfirm
  rw [if_pos hover, if_pos hover]
  rfl

/-- When every deck entry has a match in the bank, the in-place refresh
preserves the deck's ids in order. -/
theorem updateDeck_map_id (questions deck : List Question)
    (h : ∀ dq ∈ deck, ∃ q ∈ questions, q.id = dq.id) :
    (updateDeck questions deck).map Question.id = deck.map Question.id := by
  induction deck with
  | nil => simp [updateDeck]
  | cons dq rest ih =>
    obtain ⟨q, hq, hid⟩ := h dq (by simp)
    have hsome : (questions.find? (fun q2 => q2.id == dq.id)).isSome := by
      rw [List.find?_isSome]
      exact ⟨q, hq, by simp [hid]⟩
    obtain ⟨r, hr⟩ := Option.isSome_iff_exists.mp hsome
    have hrid : r.id = dq.id := by
      have := List.find?_some hr
      simpa using this
    simp only [updateDeck, List.filterMap_cons, hr, List.map_cons, hrid]
    have ihh := ih (fun d hd => h d (by simp [hd]))
    simp only [updateDeck] at ihh
    rw [ihh]

/-! ### Claim theorems -/

/-- Claim C1 (amended): the add operation (capacity check, then plain
append or confirmed evict-and-append) leaves the stored question count
at most `MAX_QUESTIONS = 5000`, provided the existing bank is within
capacity and the incoming batch has at most `DELETION_CHUNK_SIZE = 50`
questions.  (As originally stated the claim is false: eviction removes
a fixed 50 questions, so a larger batch can overshoot the capacity; see
`add_confirm_can_exceed_capacity`.) -/
theorem add_capacity_bound_small_batch (s : AppState) (newQuestions : List Question)
    (userConfirms : Bool)
    (hbank : s.questions.length ≤ MAX_QUESTIONS)
    (hbatch : newQuestions.length ≤ DELETION_CHUNK_SIZE) :
    (addFlow s newQuestions userConfirms).questions.length ≤ MAX_QUESTIONS := by
  unfold addFlow handleSaveNewQuestions handleModalConfirm handleModalCancel
  by_cases hover : s.questions.length + newQuestions.length > MAX_QUESTIONS
  · rw [if_pos hover, if_pos hover]
    cases userConfirms with
    | false => exact hbank
    | true =>
      show (s.questions.drop DELETION_CHUNK_SIZE ++ newQuestions).length ≤ MAX_QUESTIONS
      rw [List.length_append, List.length_drop]
      simp only [MAX_QUESTIONS, DELETION_CHUNK_SIZE] at *
      omega
  · rw [if_neg hover, if_neg hover]
    show (s.questions ++ newQuestions).length ≤ MAX_QUESTIONS
    rw [List.length_append]
    omega

/-- Witness for C1: adding one question to a one-question bank stays
within capacity. -/
theorem add_capacity_bound_small_batch_witness :
    (addFlow ⟨[sampleQ], false, []⟩ [markedQ] true).questions.length ≤ MAX_QUESTIONS :=
  add_capacity_bound_small_batch ⟨[sampleQ], false, []⟩ [markedQ] true
    (by decide) (by decide)

/-- Counterexample to C1 as stated: a confirmed add of 100 questions to
a bank of 4995 leaves 4995 - 50 + 100 = 5045 > 5000 stored questions. -/
theorem add_confirm_can_exceed_capacity :
    MAX_QUESTIONS < (addFlow bank4995 batch100 true).questions.length := by
  have hover : MAX_QUESTIONS < bank4995.questions.length + batch100.length := by
    rw [show bank4995.questions = List.replicate 4995 sampleQ from rfl,
      show batch100 = List.replicate 100 sampleQ from rfl,
      List.length_replicate, List.length_replicate]
    decide
  rw [addFlow_confirm_questions bank4995 batch100 hover,
    show bank4995.questions = List.replicate 4995 sampleQ from rfl,
    show batch100 = List.replicate 100 sampleQ from rfl,
    List.length_append, List.length_drop, List.length_replicate, List.length_replicate]
  decide

/-- Claim C2: when add triggers eviction (existing + incoming > 5000)
and the user confirms, the resulting bank is the existing sequence with
its first `DELETION_CHUNK_SIZE = 50` entries (the oldest, by insertion
order) removed and the incoming questions appended in order; in
particular adding 10 questions to a bank of 4995 leaves 4955. -/
theorem add_confirm_evicts_oldest_chunk (s : AppState) (newQuestions : List Question)
    (hover : MAX_QUESTIONS < s.questions.length + newQuestions.length) :
    (addFlow s newQuestions true).questions =
      s.questions.drop DELETION_CHUNK_SIZE ++ newQuestions ∧
    (s.questions.length = 4995 → newQuestions.length = 10 →
      (addFlow s newQuestions true).questions.length = 4955) := by
  have hq := addFlow_confirm_questions s newQuestions hover
  refine ⟨hq, ?_⟩
  intro h1 h2
  rw [hq, List.length_append, List.length_drop, h1, h2]
  decide

/-- Witness for C2 at the spec's example: 4995 existing questions and a
batch of 10. -/
theorem add_confirm_evicts_oldest_chunk_witness :
    (addFlow bank4995 batch10 true).questions =
      bank4995.questions.drop DELETION_CHUNK_SIZE ++ batch10 ∧
    (bank4995.questions.length = 4995 → batch10.length = 10 →
      (addFlow bank4995 batch10 true).questions.length = 4955) :=
  add_confirm_evicts_oldest_chunk bank4995 batch10
    (by
      rw [show bank4995.questions = List.replicate 4995 sampleQ from rfl,
        show batch10 = List.replicate 10 sampleQ from rfl,
        List.length_replicate, List.length_replicate]
      decide)

/-- Claim C3: when add would exceed capacity and the user declines, the
bank is left exactly unchanged and the pending batch is discarded
(cleared, so it can never be committed later). -/
theorem add_decline_leaves_bank_unchanged (s : AppState) (newQuestions : List Question)
    (hover : MAX_QUESTIONS < s.questions.length + newQuestions.length) :
    (addFlow s newQuestions false).questions = s.questions ∧
    (addFlow s newQuestions false).pendingQuestions = [] ∧
    (addFlow s newQuestions false).modalOpen = false := by
  unfold addFlow handleSaveNewQuestions handleModalCancel
  rw [if_pos hover]
  rw [if_pos hover]
  exact ⟨rfl, rfl, rfl⟩

/-- Witness for C3: declining an over-capacity batch of 100 on a bank
of 4995 leaves the bank unchanged. -/
theorem add_decline_leaves_bank_unchanged_witness :
    (addFlow bank4995 batch100 false).questions = bank4995.questions ∧
    (addFlow bank4995 batch100 false).pendingQuestions = [] ∧
    (addFlow bank4995 batch100 false).modalOpen = false :=
  add_decline_leaves_bank_unchanged bank4995 batch100
    (by
      rw [show bank4995.questions = List.replicate 4995 sampleQ from rfl,
        show batch100 = List.replicate 100 sampleQ from rfl,
        List.length_replicate, List.length_replicate]
      decide)

/-- Claim C4: for every input string (any clock reading and draw
stream), every parsed question has at least two options and at least
one correct option. -/
theorem parse_questions_wellformed (text : String) (now : Nat) (rand : Nat → Nat)
    (q : Question) (hq : q ∈ (parseGeneratedText now rand text).newQuestions) :
    2 ≤ q.options.length ∧ ∃ o ∈ q.options, o.isCorrect = true := by
  unfold parseGeneratedText at hq
  simp only [] at hq
  split at hq
  · simp at hq
  · split at hq
    · simp at hq
    · split at hq
      · simp at hq
      · obtain ⟨opts, ha, htext, hperm, hflag⟩ :=
          processPairs_mem now rand _ 0 0 q hq
        have hlen : q.options.length = opts.length := hperm.length_eq
        simp only [acceptOptions, Bool.and_eq_true, decide_eq_true_eq,
          List.any_eq_true] at ha
        obtain ⟨h1, o, ho, hoc⟩ := ha
        exact ⟨by omega, o, hperm.mem_iff.mpr ho, hoc⟩

/-- Witness for C4 at the spec's example input. -/
theorem parse_questions_wellformed_witness :
    2 ≤ parsedQ.options.length ∧ ∃ o ∈ parsedQ.options, o.isCorrect = true :=
  parse_questions_wellformed sampleText 0 rand0 parsedQ (by decide)

/-- Claim C5: an option line whose symbol was already used by an
earlier line of the same block is discarded individually, the remaining
lines being processed against the unchanged seen-set; and a question is
accepted whenever at least two option lines survive, one of them
correct (the `$` symbol). -/
theorem duplicate_symbol_line_dropped_individually :
    (∀ (seen line : List Char) (rest : List (List Char)) (symbol : Char)
        (textChars : List Char),
        readOptionLine (jsTrim line) = some (symbol, textChars) →
        textChars ≠ [] → seen.contains symbol = true →
        collectOptions seen (line :: rest) = collectOptions seen rest) ∧
    (∀ lines : List (List Char),
        2 ≤ (collectOptions [] lines).length →
        (∃ o ∈ collectOptions [] lines, o.isCorrect = true) →
        acceptOptions (collectOptions [] lines) = true) := by
  constructor
  · intro seen line rest symbol textChars h ht hs
    simp only [collectOptions, h, if_neg ht, hs, if_pos trivial, if_true]
  · intro lines hlen ⟨o, ho, hoc⟩
    simp only [acceptOptions, Bool.and_eq_true, decide_eq_true_eq, List.any_eq_true]
    exact ⟨by omega, o, ho, hoc⟩

/-- Witness for C5: a `$` line arriving when `$` was already seen is
dropped, leaving the fold where it would be without it. -/
theorem duplicate_symbol_line_dropped_individually_witness :
    collectOptions ['$'] [['$', 'X']] = collectOptions ['$'] [] :=
  duplicate_symbol_line_dropped_individually.1 ['$'] ['$', 'X'] [] '$' ['X']
    (by decide) (by decide) (by decide)

/-- Claim C6: on a bank snapshot change, if the New and Review counts
match the held decks the session controller refreshes deck data in
place preserving position, phase, scratch state and (when every deck
entry still exists) deck order; otherwise it rebuilds both decks as
permutations of the filtered snapshot, resets the position to 0, sets
the phase to New exactly when New questions exist, and resets all
scratch state and the timer to zero/running. -/
theorem bank_change_refresh_or_rebuild (rand : Nat → Nat) (questions : List Question)
    (s : SessionState) :
    ((questions.filter (fun q => !(q.hasBeenPracticed.getD false))).length = s.newDeck.length ∧
     (questions.filter (fun q => q.hasBeenPracticed.getD false)).length = s.practicedDeck.length →
      (bankEffect rand questions s).deckPosition = s.deckPosition ∧
      (bankEffect rand questions s).isPracticingNew = s.isPracticingNew ∧
      (bankEffect rand questions s).selectedAnswer = s.selectedAnswer ∧
      (bankEffect rand questions s).showExplanation = s.showExplanation ∧
      (bankEffect rand questions s).eliminatedOptions = s.eliminatedOptions ∧
      (bankEffect rand questions s).time = s.time ∧
      (bankEffect rand questions s).isTimerRunning = s.isTimerRunning ∧
      (bankEffect rand questions s).focusNewOnly = s.focusNewOnly ∧
      (bankEffect rand questions s).newDeck = updateDeck questions s.newDeck ∧
      (bankEffect rand questions s).practicedDeck = updateDeck questions s.practicedDeck ∧
      ((∀ dq ∈ s.newDeck, ∃ q ∈ questions, q.id = dq.id) →
        (bankEffect rand questions s).newDeck.map Question.id = s.newDeck.map Question.id) ∧
      ((∀ dq ∈ s.practicedDeck, ∃ q ∈ questions, q.id = dq.id) →
        (bankEffect rand questions s).practicedDeck.map Question.id =
          s.practicedDeck.map Question.id)) ∧
    (¬((questions.filter (fun q => !(q.hasBeenPracticed.getD false))).length = s.newDeck.length ∧
       (questions.filter (fun q => q.hasBeenPracticed.getD false)).length = s.practicedDeck.length) →
      (bankEffect rand questions s).newDeck.Perm
        (questions.filter (fun q => !(q.hasBeenPracticed.getD false))) ∧
      (bankEffect rand questions s).practicedDeck.Perm
        (questions.filter (fun q => q.hasBeenPracticed.getD false)) ∧
      (bankEffect rand questions s).deckPosition = 0 ∧
      (bankEffect rand questions s).isPracticingNew =
        decide ((questions.filter (fun q => !(q.hasBeenPracticed.getD false))).length > 0) ∧
      (bankEffect rand questions s).selectedAnswer = none ∧
      (bankEffect rand questions s).showExplanation = false ∧
      (bankEffect rand questions s).eliminatedOptions = [] ∧
      (bankEffect rand questions s).time = 0 ∧
      (bankEffect rand questions s).isTimerRunning = true) := by
  constructor
  · intro h
    have heff : bankEffect rand questions s =
        { s with
          newDeck := updateDeck questions s.newDeck,
          practicedDeck := updateDeck questions s.practicedDeck } := by
      unfold bankEffect
      rw [if_pos h]
    rw [heff]
    refine ⟨rfl, rfl, rfl, rfl, rfl, rfl, rfl, rfl, rfl, rfl, ?_, ?_⟩
    · intro hin
      exact updateDeck_map_id questions s.newDeck hin
    · intro hin
      exact updateDeck_map_id questions s.practicedDeck hin
  · intro h
    have heff : bankEffect rand questions s =
        { s with
          newDeck := shuffleArray rand 0
            (questions.filter (fun q => !(q.hasBeenPracticed.getD false))),
          practicedDeck := shuffleArray rand
            ((questions.filter (fun q => !(q.hasBeenPracticed.getD false))).length - 1)
            (questions.filter (fun q => q.hasBeenPracticed.getD false)),
          deckPosition := 0,
          isPracticingNew :=
            decide ((questions.filter (fun q => !(q.hasBeenPracticed.getD false))).length > 0),
          selectedAnswer := none,
          showExplanation := false,
          eliminatedOptions := [],
          time := 0,
          isTimerRunning := true } := by
      unfold bankEffect
      rw [if_neg h]
    rw [heff]
    exact ⟨shuffleArray_perm rand 0 _, shuffleArray_perm rand _ _, rfl, rfl, rfl, rfl, rfl,
      rfl, rfl⟩

/-- Witness for C6: adding a question to an empty session forces a
rebuild with position 0, New phase, and cleared scratch state. -/
theorem bank_change_refresh_or_rebuild_witness :
    (bankEffect rand0 [unmarkedQ] emptySession).newDeck.Perm
      (([unmarkedQ] : List Question).filter (fun q => !(q.hasBeenPracticed.getD false))) ∧
    (bankEffect rand0 [unmarkedQ] emptySession).practicedDeck.Perm
      (([unmarkedQ] : List Question).filter (fun q => q.hasBeenPracticed.getD false)) ∧
    (bankEffect rand0 [unmarkedQ] emptySession).deckPosition = 0 ∧
    (bankEffect rand0 [unmarkedQ] emptySession).isPracticingNew =
      decide ((([unmarkedQ] : List Question).filter
        (fun q => !(q.hasBeenPracticed.getD false))).length > 0) ∧
    (bankEffect rand0 [unmarkedQ] emptySession).selectedAnswer = none ∧
    (bankEffect rand0 [unmarkedQ] emptySession).showExplanation = false ∧
    (bankEffect rand0 [unmarkedQ] emptySession).eliminatedOptions = [] ∧
    (bankEffect rand0 [unmarkedQ] emptySession).time = 0 ∧
    (bankEffect rand0 [unmarkedQ] emptySession).isTimerRunning = true :=
  (bank_change_refresh_or_rebuild rand0 [unmarkedQ] emptySession).2 (by decide)

/-- Claim C7 (amended): parse is a pure function of its input text, its
random draw stream, and the clock reading; with the same input and the
same draws the results agree on everything except the ids, which also
require the same clock reading.  (As originally stated the claim is
false: ids embed `Date.now()`, an external input distinct from the
random source; see `parse_depends_on_clock`.) -/
theorem parse_deterministic_up_to_ids (text : String) (rand : Nat → Nat) (n₁ n₂ : Nat) :
    eraseIds (parseGeneratedText n₁ rand text) =
      eraseIds (parseGeneratedText n₂ rand text) := by
  unfold parseGeneratedText
  simp only []
  split
  · rfl
  · split
    · rfl
    · exact finishAux _ _ (processPairs_map_stripId rand n₁ n₂ _ 0 0) _

/-- Counterexample to C7 as stated: two parses of the same input with
the same random draws, at clock readings 0 and 1, differ (in their
question ids). -/
theorem parse_depends_on_clock :
    parseGeneratedText 0 rand0 sampleText ≠ parseGeneratedText 1 rand0 sampleText := by
  decide

/-- Claim C8 (amended): applying `toggleMark` twice is the identity on
the bank whenever the targeted question's `isMarked` field is
explicitly set; in general the double toggle restores the bank up to
normalising the optional `isMarked` field by its default (an absent
flag becomes an explicit `false`; see
`toggleMark_twice_not_identity_when_unset`). -/
theorem toggleMark_involutive_when_set (questions : List Question) (questionId : String) :
    normalizeMarked (handleToggleMark (handleToggleMark questions questionId) questionId) =
      normalizeMarked questions ∧
    ((∀ q ∈ questions, q.id = questionId → (q.isMarked).isSome) →
      handleToggleMark (handleToggleMark questions questionId) questionId = questions) := by
  constructor
  · unfold handleToggleMark normalizeMarked
    rw [List.map_map, List.map_map]
    apply List.map_congr_left
    intro q hq
    by_cases hid : q.id = questionId
    · simp [hid, Function.comp]
    · simp [hid, Function.comp]
  · intro h
    unfold handleToggleMark
    rw [List.map_map]
    conv_rhs => rw [show questions = questions.map id from (List.map_id questions).symm]
    apply List.map_congr_left
    intro q hq
    by_cases hid : q.id = questionId
    · obtain ⟨b, hb⟩ := Option.isSome_iff_exists.mp (h q hq hid)
      rcases q with ⟨qid, qt, opts, expl, note, marked, prac⟩
      simp only at hb hid
      subst hb
      simp [hid, Function.comp]
    · simp [hid, Function.comp]

/-- Witness for C8: double toggle on a bank whose question has
`isMarked` set is the identity. -/
theorem toggleMark_involutive_when_set_witness :
    handleToggleMark (handleToggleMark [markedQ] "b") "b" = [markedQ] :=
  (toggleMark_involutive_when_set [markedQ] "b").2 (by decide)

/-- Counterexample to C8 as stated: on a question whose `isMarked`
field is absent, a double toggle leaves `isMarked = some false`, not
the original bank. -/
theorem toggleMark_twice_not_identity_when_unset :
    handleToggleMark (handleToggleMark [unmarkedQ] "a") "a" ≠ [unmarkedQ] := by
  decide

/-- Claim C9: the parser never produces an option whose text is empty;
a line consisting only of a recognised symbol (empty after trimming) is
discarded like an unrecognised line, before the symbol is recorded as
seen. -/
theorem parse_no_empty_option_text :
    (∀ (text : String) (now : Nat) (rand : Nat → Nat) (q : Question) (o : QOption),
        q ∈ (parseGeneratedText now rand text).newQuestions → o ∈ q.options →
        o.text ≠ "") ∧
    (∀ (seen line : List Char) (rest : List (List Char)) (symbol : Char),
        readOptionLine (jsTrim line) = some (symbol, []) →
        collectOptions seen (line :: rest) = collectOptions seen rest) := by
  constructor
  · intro text now rand q o hq ho
    unfold parseGeneratedText at hq
    simp only [] at hq
    split at hq
    · simp at hq
    · split at hq
      · simp at hq
      · split at hq
        · simp at hq
        · obtain ⟨opts, ha, htext, hperm, hflag⟩ :=
            processPairs_mem now rand _ 0 0 q hq
          exact htext o (hperm.subset ho)
  · intro seen line rest symbol h
    simp only [collectOptions, h, if_true, if_pos trivial]

/-- Witness for C9: the option parsed from the sample input has
non-empty text, and a bare-symbol line contributes nothing. -/
theorem parse_no_empty_option_text_witness :
    QOption.text ⟨"B", false⟩ ≠ "" :=
  parse_no_empty_option_text.1 sampleText 0 rand0 parsedQ ⟨"B", false⟩
    (by decide) (by decide)

/-- Claim C10: whenever a current question exists - in particular at
terminal positions where no advance occurs - `handleNext` clears the
selected answer, the explanation toggle and the eliminated-options set
and resets the timer to zero and running; and in the New phase it still
emits the mark-practiced call for the current question. -/
theorem next_resets_scratch_state (s : SessionState) (cur : Question)
    (h : currentQuestion s = some cur) :
    (handleNext s).1.selectedAnswer = none ∧
    (handleNext s).1.showExplanation = false ∧
    (handleNext s).1.eliminatedOptions = [] ∧
    (handleNext s).1.time = 0 ∧
    (handleNext s).1.isTimerRunning = true ∧
    (s.isPracticingNew = true → (handleNext s).2 = some cur.id) := by
  unfold handleNext
  rw [h]
  refine ⟨rfl, rfl, rfl, rfl, rfl, ?_⟩
  intro hnew
  simp [hnew]

/-- Witness for C10 at a terminal position: the last New question with
focus-new-only set is still marked practiced and the scratch state is
reset. -/
theorem next_resets_scratch_state_witness :
    (handleNext terminalSession).1.selectedAnswer = none ∧
    (handleNext terminalSession).1.showExplanation = false ∧
    (handleNext terminalSession).1.eliminatedOptions = [] ∧
    (handleNext terminalSession).1.time = 0 ∧
    (handleNext terminalSession).1.isTimerRunning = true ∧
    (terminalSession.isPracticingNew = true →
      (handleNext terminalSession).2 = some practicedQ.id) :=
  next_resets_scratch_state terminalSession practicedQ (by decide)
